import Mathlib

/-!
Verification of the chunk-codec core of `src/IO/Common.hpp` (namespace
`IO::Common` of the WoWLib repository).

Modelling conventions:
* C++ machine integers are modelled as `Nat` with an explicit `% 2 ^ 32`
  where a `std::uint32_t` conversion truncates.  `char` values of a FourCC
  literal are modelled as byte values (`Nat`, intended `< 256`).
* A POD record `T` is modelled by its raw bytes (a `List Nat` of length
  `sizeof T`), matching the memcpy semantics the chunk containers use.
* Debug-only contract checks on `Read` are modelled by returning `Option`:
  `none` means the contract rejected the input, `some` is the new state.
* The bodies of `Read` / `Write` / `Initialize` / `Add` / `Clear` live in
  `IO/Common.inl`, which is not part of the visible sources; those
  definitions are marked `Modelled from the spec:` and follow the
  specification text.  Everything else is translated from `Common.hpp`.
-/

namespace IOCommon

/-- FourCC endianness, from `enum class FourCCEndian` (Common.hpp lines 24-28):
`LITTLE = 0`, `BIG = 1`. -/
inductive FourCCEndian where
  | LITTLE
  | BIG
deriving DecidableEq

/-- Models `static_cast<bool>(endian)` used by `FourCC` and `FourCCStr`
(`LITTLE = 0 ↦ false`, `BIG = 1 ↦ true`). -/
def FourCCEndian.toBool : FourCCEndian → Bool
  | .LITTLE => false
  | .BIG => true

/-- Compile-time FourCC encoder, from the variable template `FourCC`
(Common.hpp lines 35-38).  `b0 b1 b2 b3` are the four characters
`fourcc.value[0..3]` of the string literal, as byte values.  The final
`% 2 ^ 32` models the conversion of the `int` expression to
`std::uint32_t`. -/
def FourCC (b0 b1 b2 b3 : Nat) (endian : FourCCEndian) : Nat :=
  (if endian.toBool then b3 <<< 24 ||| b2 <<< 16 ||| b1 <<< 8 ||| b0
   else b0 <<< 24 ||| b1 <<< 16 ||| b2 <<< 8 ||| b3) % 2 ^ 32

/-- Compile-time FourCC decoder, from the variable template `FourCCStr`
(Common.hpp lines 45-53).  The source is a `char[5]`; the four data
characters are returned (the fifth array slot is the constant `NUL`
terminator and is left implicit here). -/
def FourCCStr (fourcc_int : Nat) (endian : FourCCEndian) : List Nat :=
  [ if endian.toBool then fourcc_int &&& 0xFF else (fourcc_int >>> 24) &&& 0xFF,
    if endian.toBool then (fourcc_int >>> 8) &&& 0xFF else (fourcc_int >>> 16) &&& 0xFF,
    if endian.toBool then (fourcc_int >>> 16) &&& 0xFF else (fourcc_int >>> 8) &&& 0xFF,
    if endian.toBool then (fourcc_int >>> 24) &&& 0xFF else fourcc_int &&& 0xFF ]

/-- Run-time FourCC decoder, from `FourCCToStr` (Common.hpp lines 60-70).
The source fills a `char[5]` (fifth slot `NUL`) exactly as `FourCCStr`
does, then builds the result via `return {&fourcc_str[0]};`, i.e. the
`std::string(const char*)` constructor, which copies characters only up to
the first `NUL`.  That truncation is the `takeWhile`. -/
def FourCCToStr (fourcc : Nat) (is_big_endian : Bool) : List Nat :=
  List.takeWhile (fun c => c ≠ 0)
    [ if is_big_endian then fourcc &&& 0xFF else (fourcc >>> 24) &&& 0xFF,
      if is_big_endian then (fourcc >>> 8) &&& 0xFF else (fourcc >>> 16) &&& 0xFF,
      if is_big_endian then (fourcc >>> 16) &&& 0xFF else (fourcc >>> 8) &&& 0xFF,
      if is_big_endian then (fourcc >>> 24) &&& 0xFF else fourcc &&& 0xFF ]

/-- Models `std::numeric_limits<std::size_t>::max()`, the sentinel meaning
"variable bound" for `size_min` / `size_max` (64-bit `size_t`). -/
def sizetMax : Nat := 2 ^ 64 - 1

/-- The two possible storage implementations a `DataArrayChunk`
instantiation can select: `std::array<T, n>` or `std::vector<T>`. -/
inductive ArrayImpl where
  | fixedArray (n : Nat)
  | vector
deriving DecidableEq

/-- Storage selection, from `DataArrayChunk::ArrayImplT` (Common.hpp lines
248-249): `std::conditional_t<size_max == size_min && size_max <
std::numeric_limits<std::size_t>::max(), std::array<T, size_max>,
std::vector<T>>`. -/
def ArrayImplT (size_min size_max : Nat) : ArrayImpl :=
  if size_max = size_min ∧ size_max < sizetMax then ArrayImpl.fixedArray size_max
  else ArrayImpl.vector

/-- DataChunk (Common.hpp lines 137-212), instantiated at a POD type `T`
with `sizeof T = k`.  `data` holds the raw bytes of the wrapped value;
`_is_initialized` is the private flag (line 211). -/
structure DataChunk (k : Nat) where
  data : List Nat
  _is_initialized : Bool
deriving DecidableEq

/-- Default-constructed `DataChunk` (`DataChunk() = default`):
`_is_initialized` is `false` by its member initializer (line 211); the POD
`data` member is default-initialized (value irrelevant, modelled as zero
bytes). -/
def DataChunk.mkDefault (k : Nat) : DataChunk k :=
  { data := List.replicate k 0, _is_initialized := false }

/-- Accessor `DataChunk::IsInitialized` (line 189). -/
def DataChunk.IsInitialized (c : DataChunk k) : Bool := c._is_initialized

/-- Method `DataChunk::ByteSize` (line 182): `return sizeof(T);`. -/
def DataChunk.ByteSize (k : Nat) (_ : DataChunk k) : Nat := k

/-- Modelled from the spec: `DataChunk::Initialize()` (body in
`IO/Common.inl`) sets the value to its default state and marks the chunk
initialized. -/
def DataChunk.InitializeDefault (_ : DataChunk k) : DataChunk k :=
  { data := List.replicate k 0, _is_initialized := true }

/-- Modelled from the spec: `DataChunk::Initialize(data_block)` (body in
`IO/Common.inl`) copies the value in and marks the chunk initialized. -/
def DataChunk.Initialize (_ : DataChunk k) (data_block : List Nat) : DataChunk k :=
  { data := data_block, _is_initialized := true }

/-- Modelled from the spec: `DataChunk::Read(buf, size)` (body in
`IO/Common.inl`) requires `size == sizeof(T)` (debug contract, modelled as
`Option`), copies `size` bytes out of the stream into the value and marks
the chunk initialized.  `payload` is the run of bytes the stream cursor
offers. -/
def DataChunk.Read (_ : DataChunk k) (payload : List Nat) : Option (DataChunk k) :=
  if payload.length = k then some { data := payload, _is_initialized := true }
  else none

/-- Modelled from the spec: `DataChunk::Write(buf)` (body in
`IO/Common.inl`) appends the raw bytes of the value to the stream. -/
def DataChunk.Write (c : DataChunk k) : List Nat := c.data

/-- Growable (`std::vector<T>`) instantiation of DataArrayChunk
(Common.hpp lines 237-381) at a POD type `T` with `sizeof T = k`.  Each
element is the `k` raw bytes of one `T` record; `_is_initialized` is the
private flag (line 380). -/
structure DataArrayChunk (k : Nat) where
  _data : List (List Nat)
  _is_initialized : Bool
deriving DecidableEq

/-- Fixed-capacity (`std::array<T, n>`) instantiation of DataArrayChunk,
selected when `size_min == size_max == n` are finite.  A `std::array`
always holds exactly `n` elements, hence the length-`n` subtype. -/
structure DataArrayChunkFixed (k n : Nat) where
  _data : { l : List (List Nat) // l.length = n }
  _is_initialized : Bool
deriving DecidableEq

/-- Default-constructed growable `DataArrayChunk`: empty vector,
`_is_initialized = false` (line 380). -/
def DataArrayChunk.mkDefault (k : Nat) : DataArrayChunk k :=
  { _data := [], _is_initialized := false }

/-- Default-constructed fixed-capacity `DataArrayChunk`: the `std::array`
holds `n` default-initialized records, `_is_initialized = false`. -/
def DataArrayChunkFixed.mkDefault (k n : Nat) : DataArrayChunkFixed k n :=
  { _data := ⟨List.replicate n (List.replicate k 0), by simp⟩, _is_initialized := false }

/-- Accessor `DataArrayChunk::IsInitialized` (line 289). -/
def DataArrayChunk.IsInitialized (c : DataArrayChunk k) : Bool := c._is_initialized

/-- Accessor `DataArrayChunk::IsInitialized` (line 289), fixed form. -/
def DataArrayChunkFixed.IsInitialized (c : DataArrayChunkFixed k n) : Bool := c._is_initialized

/-- Method `DataArrayChunk::Size` (line 296): `return _data.size();`. -/
def DataArrayChunk.Size (c : DataArrayChunk k) : Nat := c._data.length

/-- Method `DataArrayChunk::Size` (line 296) on the fixed form:
`_data.size()` of a `std::array<T, n>` is `n`; here the stored list has
length `n` by the subtype invariant. -/
def DataArrayChunkFixed.Size (c : DataArrayChunkFixed k n) : Nat := c._data.val.length

/-- Method `DataArrayChunk::ByteSize` (line 303):
`return _data.size() * sizeof(T);`. -/
def DataArrayChunk.ByteSize (c : DataArrayChunk k) : Nat := c._data.length * k

/-- Method `DataArrayChunk::ByteSize` (line 303), fixed form. -/
def DataArrayChunkFixed.ByteSize (c : DataArrayChunkFixed k n) : Nat := c._data.val.length * k

/-- Reads `count` consecutive `k`-byte records off the front of a byte
run, as the element-wise read loop of `DataArrayChunk::Read` does. -/
def readRecords (k : Nat) : Nat → List Nat → List (List Nat)
  | 0, _ => []
  | count + 1, bytes => bytes.take k :: readRecords k count (bytes.drop k)

/-- Modelled from the spec: `DataArrayChunk::Read(buf, size)` (body in
`IO/Common.inl`) contract-checks that `size` is a multiple of `sizeof(T)`
(modelled as `Option`), reads `size / sizeof(T)` records sequentially in
their native layout and marks the chunk initialized. -/
def DataArrayChunk.Read (_ : DataArrayChunk k) (payload : List Nat) :
    Option (DataArrayChunk k) :=
  if payload.length % k = 0 then
    some { _data := readRecords k (payload.length / k) payload, _is_initialized := true }
  else none

/-- Modelled from the spec: `DataArrayChunk::Write(buf)` (body in
`IO/Common.inl`) emits the elements sequentially in storage order. -/
def DataArrayChunk.Write (c : DataArrayChunk k) : List Nat := c._data.flatten

/-- Modelled from the spec: `DataArrayChunk::Initialize()` (body in
`IO/Common.inl`) initializes an empty array chunk and marks it
initialized. -/
def DataArrayChunk.Initialize (_ : DataArrayChunk k) : DataArrayChunk k :=
  { _data := [], _is_initialized := true }

/-- Modelled from the spec: `DataArrayChunk::Initialize(data_block, n)`
(body in `IO/Common.inl`) fills the chunk with `n` copies of the record
and marks it initialized. -/
def DataArrayChunk.InitializeN (_ : DataArrayChunk k) (data_block : List Nat)
    (n : Nat) : DataArrayChunk k :=
  { _data := List.replicate n data_block, _is_initialized := true }

/-- Modelled from the spec: `DataArrayChunkFixed` `Initialize()` marks the
chunk initialized (the `std::array` storage keeps its `n` slots). -/
def DataArrayChunkFixed.Initialize (c : DataArrayChunkFixed k n) : DataArrayChunkFixed k n :=
  { _data := c._data, _is_initialized := true }

/-- Modelled from the spec: the fixed-capacity `Read` additionally
contract-checks that the element count equals the capacity `n`. -/
def DataArrayChunkFixed.Read (_ : DataArrayChunkFixed k n) (payload : List Nat) :
    Option (DataArrayChunkFixed k n) :=
  if h : payload.length % k = 0 ∧ payload.length / k = n then
    some { _data := ⟨readRecords k n payload, by
              have : ∀ (m : Nat) (l : List Nat), (readRecords k m l).length = m := by
                intro m
                induction m with
                | zero => intro l; rfl
                | succ m ih => intro l; simpa [readRecords] using ih (l.drop k)
              exact this n payload⟩,
           _is_initialized := true }
  else none

/-- Modelled from the spec: `DataArrayChunk::Write(buf)` (body in
`IO/Common.inl`) on the fixed-capacity form emits the `n` elements of the
`std::array` sequentially in storage order, exactly as the growable form
does. -/
def DataArrayChunkFixed.Write (c : DataArrayChunkFixed k n) : List Nat :=
  c._data.val.flatten

/-- Modelled from the spec: `DataArrayChunk::Add()` (growable only, body
in `IO/Common.inl`) default-constructs a new trailing element; the
`_is_initialized` flag is untouched. -/
def DataArrayChunk.Add (c : DataArrayChunk k) : DataArrayChunk k :=
  { _data := c._data ++ [List.replicate k 0], _is_initialized := c._is_initialized }

/-- Modelled from the spec: `DataArrayChunk::Remove(index)` (growable
only, body in `IO/Common.inl`) erases one element, shifting the rest; the
`_is_initialized` flag is untouched. -/
def DataArrayChunk.Remove (c : DataArrayChunk k) (index : Nat) : DataArrayChunk k :=
  { _data := c._data.eraseIdx index, _is_initialized := c._is_initialized }

/-- Modelled from the spec: `DataArrayChunk::Clear()` (growable only,
body in `IO/Common.inl`) empties the underlying vector;
`IsInitialized()` remains as it was. -/
def DataArrayChunk.Clear (c : DataArrayChunk k) : DataArrayChunk k :=
  { _data := [], _is_initialized := c._is_initialized }

/-- NORMAL variant of StringBlockChunk (Common.hpp lines 406-538,
`type == StringBlockChunkType::NORMAL`): `_data` is a
`std::vector<std::string>`; strings are modelled as their bytes (no
embedded or trailing `NUL`).  `_is_initialized` is the private flag
(line 536). -/
structure StringBlockChunkNormal where
  _data : List (List Nat)
  _is_initialized : Bool
deriving DecidableEq

/-- OFFSET variant of StringBlockChunk: `_data` is a
`std::vector<std::pair<std::uint32_t, std::string>>` of (byte offset into
the serialized block, string bytes) pairs. -/
structure StringBlockChunkOffset where
  _data : List (Nat × List Nat)
  _is_initialized : Bool
deriving DecidableEq

/-- Default-constructed NORMAL string block (`StringBlockChunk() =
default`): empty vector, `_is_initialized = false` (line 536). -/
def StringBlockChunkNormal.mkDefault : StringBlockChunkNormal :=
  { _data := [], _is_initialized := false }

/-- Default-constructed OFFSET string block: empty vector,
`_is_initialized = false` (line 536). -/
def StringBlockChunkOffset.mkDefault : StringBlockChunkOffset :=
  { _data := [], _is_initialized := false }

/-- Accessor `StringBlockChunk::IsInitialized` (line 436). -/
def StringBlockChunkNormal.IsInitialized (c : StringBlockChunkNormal) : Bool :=
  c._is_initialized

/-- Accessor `StringBlockChunk::IsInitialized` (line 436), OFFSET form. -/
def StringBlockChunkOffset.IsInitialized (c : StringBlockChunkOffset) : Bool :=
  c._is_initialized

/-- Method `StringBlockChunk::Size` (line 443): `return _data.size();`. -/
def StringBlockChunkNormal.Size (c : StringBlockChunkNormal) : Nat := c._data.length

/-- Method `StringBlockChunk::Size` (line 443), OFFSET form. -/
def StringBlockChunkOffset.Size (c : StringBlockChunkOffset) : Nat := c._data.length

/-- Modelled from the spec: `StringBlockChunk::ByteSize` (body in
`IO/Common.inl`) is the sum of each entry's encoded length including its
`NUL` terminator. -/
def StringBlockChunkNormal.ByteSize (c : StringBlockChunkNormal) : Nat :=
  (c._data.map (fun s => s.length + 1)).sum

/-- Modelled from the spec: `StringBlockChunk::ByteSize` (body in
`IO/Common.inl`), OFFSET form: sum over the stored strings of length plus
terminator. -/
def StringBlockChunkOffset.ByteSize (c : StringBlockChunkOffset) : Nat :=
  (c._data.map (fun e => e.2.length + 1)).sum

/-- Splits a byte run into its `NUL`-terminated entries, as the scanning
loop of `StringBlockChunk::Read` does; `none` when a trailing run has no
terminator (malformed chunk). -/
def parseStrings : List Nat → Option (List (List Nat))
  | [] => some []
  | c :: rest =>
    if c = 0 then (parseStrings rest).map (fun ss => [] :: ss)
    else
      match parseStrings rest with
      | some (s :: ss) => some ((c :: s) :: ss)
      | _ => none

/-- Assigns to each parsed entry its starting byte offset within the
serialized block, as the OFFSET `Read` scan does (each entry advances the
offset by its length plus the terminator). -/
def assignOffsets (ofs : Nat) : List (List Nat) → List (Nat × List Nat)
  | [] => []
  | s :: ss => (ofs, s) :: assignOffsets (ofs + s.length + 1) ss

/-- Modelled from the spec: NORMAL `StringBlockChunk::Read(buf, size)`
(body in `IO/Common.inl`) scans `size` bytes, splitting on `NUL`
terminators, producing one entry per terminated run, and marks the chunk
initialized. -/
def StringBlockChunkNormal.Read (_ : StringBlockChunkNormal) (payload : List Nat) :
    Option StringBlockChunkNormal :=
  match parseStrings payload with
  | some ss => some { _data := ss, _is_initialized := true }
  | none => none

/-- Modelled from the spec: OFFSET `StringBlockChunk::Read(buf, size)`
(body in `IO/Common.inl`) scans the same `NUL`-terminated block but also
records each entry's starting byte offset within the block, and marks the
chunk initialized. -/
def StringBlockChunkOffset.Read (_ : StringBlockChunkOffset) (payload : List Nat) :
    Option StringBlockChunkOffset :=
  match parseStrings payload with
  | some ss => some { _data := assignOffsets 0 ss, _is_initialized := true }
  | none => none

/-- Modelled from the spec: `StringBlockChunk::Write(buf)` (body in
`IO/Common.inl`) emits each entry's bytes followed by a `NUL` terminator,
in storage order. -/
def StringBlockChunkNormal.Write (c : StringBlockChunkNormal) : List Nat :=
  (c._data.map (fun s => s ++ [0])).flatten

/-- Modelled from the spec: `StringBlockChunk::Write(buf)` (body in
`IO/Common.inl`), OFFSET form: entries are emitted in storage order,
bytes plus terminator. -/
def StringBlockChunkOffset.Write (c : StringBlockChunkOffset) : List Nat :=
  (c._data.map (fun e => e.2 ++ [0])).flatten

/-- Modelled from the spec: `StringBlockChunk::Initialize()` (body in
`IO/Common.inl`) marks the (empty) chunk initialized. -/
def StringBlockChunkNormal.Initialize (_ : StringBlockChunkNormal) : StringBlockChunkNormal :=
  { _data := [], _is_initialized := true }

/-- Modelled from the spec: `StringBlockChunk::Initialize()` (body in
`IO/Common.inl`), OFFSET form. -/
def StringBlockChunkOffset.Initialize (_ : StringBlockChunkOffset) : StringBlockChunkOffset :=
  { _data := [], _is_initialized := true }

/-- Modelled from the spec: NORMAL `Initialize(strings)` (body in
`IO/Common.inl`) stores the list as given, preserving order and
duplicates, and marks the chunk initialized. -/
def StringBlockChunkNormal.InitializeWith (_ : StringBlockChunkNormal)
    (strings : List (List Nat)) : StringBlockChunkNormal :=
  { _data := strings, _is_initialized := true }

/-- Modelled from the spec: OFFSET `Initialize(strings)` (body in
`IO/Common.inl`) stores each string with an offset assigned by encoding
order (no deduplication on this path) and marks the chunk initialized. -/
def StringBlockChunkOffset.InitializeWith (_ : StringBlockChunkOffset)
    (strings : List (List Nat)) : StringBlockChunkOffset :=
  { _data := assignOffsets 0 strings, _is_initialized := true }

/-- Modelled from the spec: NORMAL `StringBlockChunk::Add(string)` (body
in `IO/Common.inl`) appends unconditionally; the flag is untouched. -/
def StringBlockChunkNormal.Add (c : StringBlockChunkNormal) (s : List Nat) :
    StringBlockChunkNormal :=
  { _data := c._data ++ [s], _is_initialized := c._is_initialized }

/-- Modelled from the spec: OFFSET `StringBlockChunk::Add(string)` (body
in `IO/Common.inl`, Common.hpp lines 452-457) scans current entries for
byte-identical content; if found, no new entry is added; otherwise the
string is appended with offset equal to the current total `ByteSize()`.
The flag is untouched. -/
def StringBlockChunkOffset.Add (c : StringBlockChunkOffset) (s : List Nat) :
    StringBlockChunkOffset :=
  if ∃ e ∈ c._data, e.2 = s then c
  else { _data := c._data ++ [(c.ByteSize, s)], _is_initialized := c._is_initialized }

/-- Modelled from the spec: NORMAL `StringBlockChunk::Remove(index)`
(body in `IO/Common.inl`) erases one entry; the flag is untouched. -/
def StringBlockChunkNormal.Remove (c : StringBlockChunkNormal) (index : Nat) :
    StringBlockChunkNormal :=
  { _data := c._data.eraseIdx index, _is_initialized := c._is_initialized }

/-- Modelled from the spec: OFFSET `StringBlockChunk::Remove(index)`
(body in `IO/Common.inl`) erases one entry and renumbers the offsets of
every entry that followed it; the flag is untouched. -/
def StringBlockChunkOffset.Remove (c : StringBlockChunkOffset) (index : Nat) :
    StringBlockChunkOffset :=
  { _data := assignOffsets 0 ((c._data.eraseIdx index).map (fun e => e.2)),
    _is_initialized := c._is_initialized }

/-- Modelled from the spec: `StringBlockChunk::Clear()` (body in
`IO/Common.inl`) empties the underlying vector; `IsInitialized()` remains
as it was. -/
def StringBlockChunkNormal.Clear (c : StringBlockChunkNormal) : StringBlockChunkNormal :=
  { _data := [], _is_initialized := c._is_initialized }

/-- Modelled from the spec: `StringBlockChunk::Clear()` (body in
`IO/Common.inl`), OFFSET form. -/
def StringBlockChunkOffset.Clear (c : StringBlockChunkOffset) : StringBlockChunkOffset :=
  { _data := [], _is_initialized := c._is_initialized }

/-! Helper lemmas (shared; not tied to a single claim). -/

/-- Bitwise-or of a left-shifted value with a value that fits entirely
below the shift is plain addition.  This justifies reading the `|` chains
of `FourCC` arithmetically. -/
theorem shiftLeft_lor_low (x y k : Nat) (h : y < 2 ^ k) : x <<< k ||| y = x * 2 ^ k + y := by
  apply Nat.eq_of_testBit_eq
  intro i
  simp only [Nat.testBit_lor, Nat.testBit_shiftLeft]
  rcases Nat.lt_or_ge i k with hik | hik
  · rw [decide_eq_false (Nat.not_le.mpr hik)]
    simp only [Bool.false_and, Bool.false_or]
    rw [Nat.testBit_to_div_mod, Nat.testBit_to_div_mod]
    have e1 : x * 2 ^ k = x * 2 ^ (k - i - 1) * 2 * 2 ^ i := by
      rw [Nat.mul_assoc, Nat.mul_assoc, ← Nat.pow_succ']
      rw [← Nat.pow_add]
      congr 2
      omega
    rw [e1, Nat.add_comm, Nat.add_mul_div_right _ _ (Nat.pos_pow_of_pos i (by norm_num)),
        Nat.add_mul_mod_self_right]
  · rw [decide_eq_true hik]
    simp only [Bool.true_and]
    rw [Nat.testBit_lt_two_pow (Nat.lt_of_lt_of_le h (Nat.pow_le_pow_right (by norm_num) hik)),
        Bool.or_false]
    have e3 : (x * 2 ^ k + y) >>> k = x := by
      rw [Nat.shiftRight_eq_div_pow, Nat.add_comm,
          Nat.add_mul_div_right _ _ (Nat.pos_pow_of_pos k (by norm_num)),
          Nat.div_eq_of_lt h, Nat.zero_add]
    calc x.testBit (i - k) = ((x * 2 ^ k + y) >>> k).testBit (i - k) := by rw [e3]
      _ = (x * 2 ^ k + y).testBit (k + (i - k)) := by rw [Nat.testBit_shiftRight]
      _ = (x * 2 ^ k + y).testBit i := by congr 1; omega

/-- Masking with `0xFF` is reduction modulo 256. -/
theorem and_255_eq_mod (x : Nat) : x &&& 255 = x % 256 := by
  have h := Nat.and_pow_two_sub_one_eq_mod x 8
  norm_num at h
  exact h

/-- The four-byte `|` chain of `FourCC`, written arithmetically. -/
theorem lor4_eq_arith (b0 b1 b2 b3 : Nat) (_h0 : b0 < 256) (h1 : b1 < 256) (h2 : b2 < 256)
    (h3 : b3 < 256) :
    b0 <<< 24 ||| b1 <<< 16 ||| b2 <<< 8 ||| b3
      = b0 * 2 ^ 24 + b1 * 2 ^ 16 + b2 * 2 ^ 8 + b3 := by
  rw [Nat.lor_assoc, Nat.lor_assoc]
  rw [shiftLeft_lor_low b2 b3 8 (by omega)]
  rw [shiftLeft_lor_low b1 (b2 * 2 ^ 8 + b3) 16 (by omega)]
  rw [shiftLeft_lor_low b0 (b1 * 2 ^ 16 + (b2 * 2 ^ 8 + b3)) 24 (by omega)]
  ring

/-- A list whose elements are all nonzero is its own longest zero-free
prefix. -/
theorem takeWhile_ne_zero_eq_self (l : List Nat) (h : ∀ c ∈ l, c ≠ 0) :
    l.takeWhile (fun c => c ≠ 0) = l := by
  induction l with
  | nil => rfl
  | cons a l ih =>
    have ha : a ≠ 0 := h a (List.mem_cons_self a l)
    simp only [List.takeWhile_cons, ha, decide_eq_true (by exact ha : a ≠ 0)]
    simp only [if_true, List.cons.injEq, true_and]
    exact ih (fun c hc => h c (List.mem_cons_of_mem a hc))

/-- Flattening the records read off a byte run reproduces the run, when
the run's length is the announced record count times the record size. -/
theorem readRecords_flatten (k : Nat) :
    ∀ (n : Nat) (p : List Nat), p.length = n * k → (readRecords k n p).flatten = p := by
  intro n
  induction n with
  | zero =>
    intro p hp
    have hnil : p = [] := List.eq_nil_of_length_eq_zero (by simpa using hp)
    rw [hnil]
    rfl
  | succ n ih =>
    intro p hp
    have hd : (p.drop k).length = n * k := by
      simp only [List.length_drop, hp]
      have : n * k + k = (n + 1) * k := by ring
      omega
    simp only [readRecords, List.flatten_cons, ih (p.drop k) hd, List.take_append_drop]

/-- The entries parsed out of a `NUL`-terminated block, re-serialized
with their terminators, reproduce the block. -/
theorem parseStrings_flatten :
    ∀ (p : List Nat) (ss : List (List Nat)), parseStrings p = some ss →
      (ss.map (fun s => s ++ [0])).flatten = p := by
  intro p
  induction p with
  | nil =>
    intro ss h
    simp only [parseStrings, Option.some.injEq] at h
    subst h
    rfl
  | cons c rest ih =>
    intro ss h
    by_cases hc : c = 0
    · subst hc
      simp only [parseStrings, reduceIte] at h
      cases hrest : parseStrings rest with
      | none => rw [hrest] at h; simp at h
      | some ss' =>
        rw [hrest] at h
        simp only [Option.map_some', Option.some.injEq] at h
        subst h
        simp only [List.map_cons, List.flatten_cons, List.nil_append, List.cons_append,
          ih ss' hrest]
    · simp only [parseStrings, if_neg hc] at h
      cases hrest : parseStrings rest with
      | none => rw [hrest] at h; simp at h
      | some ss' =>
        rw [hrest] at h
        cases ss' with
        | nil => simp at h
        | cons s acc =>
          simp only [Option.some.injEq] at h
          subst h
          simp only [List.map_cons, List.flatten_cons, List.cons_append]
          have := ih (s :: acc) hrest
          simp only [List.map_cons, List.flatten_cons] at this
          rw [List.append_assoc] at this ⊢
          rw [this]

/-- Offset assignment only decorates the parsed entries: serializing the
decorated entries is serializing the entries. -/
theorem assignOffsets_map_serialize :
    ∀ (ss : List (List Nat)) (ofs : Nat),
      (assignOffsets ofs ss).map (fun e => e.2 ++ [0]) = ss.map (fun s => s ++ [0]) := by
  intro ss
  induction ss with
  | nil => intro ofs; rfl
  | cons s ss ih => intro ofs; simp [assignOffsets, ih]

/-- Flattening a list whose elements all have length `k` yields
`count * k` bytes. -/
theorem flatten_length_const (k : Nat) :
    ∀ L : List (List Nat), (∀ e ∈ L, e.length = k) → L.flatten.length = L.length * k := by
  intro L
  induction L with
  | nil => intro _; simp
  | cons e L ih =>
    intro h
    have he : e.length = k := h e (List.mem_cons_self e L)
    have hL : ∀ x ∈ L, x.length = k := fun x hx => h x (List.mem_cons_of_mem e hx)
    simp only [List.flatten_cons, List.length_append, List.length_cons, ih hL, he,
      Nat.succ_mul]
    omega

/-! Claim theorems. -/

/-- C1: the FourCC codec is a pair of mutually inverse total maps.  For
every 4-character string (four byte values, printable or not) and either
endianness, decoding the encoded tag returns the original characters, and
for every 32-bit integer, encoding the decoded characters returns the
original integer. -/
theorem fourCC_fourCCStr_inverse :
    (∀ (e : FourCCEndian) (b0 b1 b2 b3 : Nat),
        b0 < 256 → b1 < 256 → b2 < 256 → b3 < 256 →
        FourCCStr (FourCC b0 b1 b2 b3 e) e = [b0, b1, b2, b3])
    ∧ (∀ (e : FourCCEndian) (x : Nat), x < 2 ^ 32 →
        ∀ b0 b1 b2 b3 : Nat, FourCCStr x e = [b0, b1, b2, b3] →
        FourCC b0 b1 b2 b3 e = x) := by
  constructor
  · intro e b0 b1 b2 b3 h0 h1 h2 h3
    cases e <;>
      simp only [FourCC, FourCCStr, FourCCEndian.toBool, Bool.false_eq_true, ite_false, ite_true]
    · rw [lor4_eq_arith b0 b1 b2 b3 h0 h1 h2 h3]
      rw [Nat.mod_eq_of_lt (by omega)]
      simp only [Nat.shiftRight_eq_div_pow, and_255_eq_mod]
      norm_num
      omega
    · rw [lor4_eq_arith b3 b2 b1 b0 h3 h2 h1 h0]
      rw [Nat.mod_eq_of_lt (by omega)]
      simp only [Nat.shiftRight_eq_div_pow, and_255_eq_mod]
      norm_num
      omega
  · intro e x hx b0 b1 b2 b3 hs
    cases e <;>
      simp only [FourCCStr, FourCCEndian.toBool, ite_false, ite_true, Bool.false_eq_true,
        List.cons.injEq, and_true] at hs <;>
      obtain ⟨e0, e1, e2, e3⟩ := hs <;>
      simp only [FourCC, FourCCEndian.toBool, ite_false, ite_true, Bool.false_eq_true] <;>
      subst e0 e1 e2 e3 <;>
      simp only [Nat.shiftRight_eq_div_pow, and_255_eq_mod] <;>
      rw [lor4_eq_arith _ _ _ _ (by omega) (by omega) (by omega) (by omega)] <;>
      omega

/-- Witness for C1: decode-encode at the printable tag M V E R, and
encode-decode at the integer 0x00030201 whose BIG decoding contains the
non-printable bytes 1, 2, 3 and 0. -/
theorem fourCC_fourCCStr_inverse_witness :
    FourCCStr (FourCC 77 86 69 82 FourCCEndian.LITTLE) FourCCEndian.LITTLE = [77, 86, 69, 82]
    ∧ FourCC 1 2 3 0 FourCCEndian.BIG = 0x00030201 :=
  ⟨fourCC_fourCCStr_inverse.1 FourCCEndian.LITTLE 77 86 69 82
      (by decide) (by decide) (by decide) (by decide),
   fourCC_fourCCStr_inverse.2 FourCCEndian.BIG 0x00030201 (by decide) 1 2 3 0 (by decide)⟩

/-- C2 counterexample: encoding the tag characters R E V M
(0x52 0x45 0x56 0x4D) with LITTLE endianness takes the second branch of
`FourCC` (`value[0] << 24 | value[1] << 16 | value[2] << 8 | value[3]`),
which yields 0x5245564D, not 0x4D564552 as the claim states. -/
theorem fourCC_REVM_little_counterexample :
    FourCC 0x52 0x45 0x56 0x4D FourCCEndian.LITTLE ≠ 0x4D564552 := by decide

/-- C2 amended: encoding the tag R E V M with LITTLE endianness produces
the 32-bit integer 0x5245564D.  (The claimed value 0x4D564552 is what the
LITTLE encoding of M V E R, or the BIG encoding of R E V M, produces.) -/
theorem fourCC_REVM_little_value :
    FourCC 0x52 0x45 0x56 0x4D FourCCEndian.LITTLE = 0x5245564D := by decide

/-- C10 counterexample: at `fourcc = 0` the run-time decoder returns the
empty string (the `std::string(const char*)` constructor stops at the
first `NUL`), while the compile-time decoder's four characters are
0 0 0 0; the two texts differ. -/
theorem fourCCToStr_counterexample :
    FourCCToStr 0 false ≠ FourCCStr 0 FourCCEndian.LITTLE := by decide

/-- C10 amended: for every 32-bit integer and both endianness choices,
`FourCCToStr` produces the longest `NUL`-free prefix of the four
characters `FourCCStr` produces (truncation caused by constructing the
`std::string` from a C string); in particular the two decoders agree
exactly when none of the four decoded characters is `NUL`. -/
theorem fourCCToStr_eq_fourCCStr_truncated :
    ∀ (x : Nat) (e : FourCCEndian),
      FourCCToStr x e.toBool = (FourCCStr x e).takeWhile (fun c => c ≠ 0)
      ∧ ((∀ c ∈ FourCCStr x e, c ≠ 0) → FourCCToStr x e.toBool = FourCCStr x e) := by
  intro x e
  have hmain : FourCCToStr x e.toBool = (FourCCStr x e).takeWhile (fun c => c ≠ 0) := by
    cases e <;> rfl
  refine ⟨hmain, fun h => ?_⟩
  rw [hmain, takeWhile_ne_zero_eq_self _ h]

/-- Witness for C10: at 0x41424344 (all four decoded characters
nonzero) the run-time and compile-time decoders agree. -/
theorem fourCCToStr_eq_fourCCStr_truncated_witness :
    FourCCToStr 0x41424344 FourCCEndian.LITTLE.toBool
      = FourCCStr 0x41424344 FourCCEndian.LITTLE :=
  (fourCCToStr_eq_fourCCStr_truncated 0x41424344 FourCCEndian.LITTLE).2 (by decide)

/-- C3: for each chunk kind, every byte payload that `Read` accepts is
reproduced bit-for-bit by a subsequent `Write` (single-value chunk, both
the growable and the fixed-capacity array chunk forms, and both
string-block variants). -/
theorem chunk_read_write_roundtrip :
    (∀ (k : Nat) (c c' : DataChunk k) (payload : List Nat),
        c.Read payload = some c' → c'.Write = payload)
    ∧ (∀ (k : Nat) (c c' : DataArrayChunk k) (payload : List Nat),
        c.Read payload = some c' → c'.Write = payload)
    ∧ (∀ (k n : Nat) (c c' : DataArrayChunkFixed k n) (payload : List Nat),
        c.Read payload = some c' → c'.Write = payload)
    ∧ (∀ (c c' : StringBlockChunkNormal) (payload : List Nat),
        c.Read payload = some c' → c'.Write = payload)
    ∧ (∀ (c c' : StringBlockChunkOffset) (payload : List Nat),
        c.Read payload = some c' → c'.Write = payload) := by
  refine ⟨?_, ?_, ?_, ?_, ?_⟩
  · intro k c c' payload h
    simp only [DataChunk.Read] at h
    split at h
    · cases h
      rfl
    · cases h
  · intro k c c' payload h
    simp only [DataArrayChunk.Read] at h
    split at h
    · cases h
      rename_i hmod
      simp only [DataArrayChunk.Write]
      exact readRecords_flatten k (payload.length / k) payload
        (Nat.div_mul_cancel (Nat.dvd_of_mod_eq_zero hmod)).symm
    · cases h
  · intro k n c c' payload h
    simp only [DataArrayChunkFixed.Read] at h
    split at h
    · cases h
      rename_i hcond
      obtain ⟨hmod, hdiv⟩ := hcond
      simp only [DataArrayChunkFixed.Write]
      refine readRecords_flatten k n payload ?_
      rw [← hdiv]
      exact (Nat.div_mul_cancel (Nat.dvd_of_mod_eq_zero hmod)).symm
    · cases h
  · intro c c' payload h
    simp only [StringBlockChunkNormal.Read] at h
    cases hp : parseStrings payload with
    | none => rw [hp] at h; cases h
    | some ss =>
      rw [hp] at h
      cases h
      simp only [StringBlockChunkNormal.Write]
      exact parseStrings_flatten payload ss hp
  · intro c c' payload h
    simp only [StringBlockChunkOffset.Read] at h
    cases hp : parseStrings payload with
    | none => rw [hp] at h; cases h
    | some ss =>
      rw [hp] at h
      cases h
      simp only [StringBlockChunkOffset.Write, assignOffsets_map_serialize]
      exact parseStrings_flatten payload ss hp

/-- Witness for C3: a 4-byte single-value payload, an 8-byte payload into
a fixed-capacity two-record array, and the string block f o o NUL all
round-trip through concrete `Read` then `Write`. -/
theorem chunk_read_write_roundtrip_witness :
    DataChunk.Write (⟨[7, 0, 0, 0], true⟩ : DataChunk 4) = [7, 0, 0, 0]
    ∧ DataArrayChunkFixed.Write
        (⟨⟨[[1, 2, 3, 4], [5, 6, 7, 8]], by decide⟩, true⟩ : DataArrayChunkFixed 4 2)
      = [1, 2, 3, 4, 5, 6, 7, 8]
    ∧ StringBlockChunkOffset.Write ⟨[(0, [102, 111, 111])], true⟩ = [102, 111, 111, 0] :=
  ⟨chunk_read_write_roundtrip.1 4 (DataChunk.mkDefault 4) _ [7, 0, 0, 0] (by decide),
   chunk_read_write_roundtrip.2.2.1 4 2 (DataArrayChunkFixed.mkDefault 4 2)
     ⟨⟨[[1, 2, 3, 4], [5, 6, 7, 8]], by decide⟩, true⟩ [1, 2, 3, 4, 5, 6, 7, 8] (by decide),
   chunk_read_write_roundtrip.2.2.2.2 StringBlockChunkOffset.mkDefault _ [102, 111, 111, 0]
     (by decide)⟩

/-- C4: `DataArrayChunk` selects `std::array<T, size_max>` exactly when
`size_min == size_max` and the value is below the `size_t` sentinel, and
`std::vector<T>` otherwise; on a fixed-capacity instantiation `Size()`
equals `size_max` whenever the chunk is initialized (indeed always, since
a `std::array` owns exactly `size_max` slots). -/
theorem dataArrayChunk_storage_selection :
    (∀ size_min size_max : Nat, size_min = size_max → size_max < sizetMax →
        ArrayImplT size_min size_max = ArrayImpl.fixedArray size_max)
    ∧ (∀ size_min size_max : Nat, ¬(size_max = size_min ∧ size_max < sizetMax) →
        ArrayImplT size_min size_max = ArrayImpl.vector)
    ∧ (∀ (k n : Nat) (c : DataArrayChunkFixed k n),
        c.IsInitialized = true → c.Size = n) := by
  refine ⟨?_, ?_, ?_⟩
  · intro smin smax h1 h2
    simp only [ArrayImplT, if_pos (And.intro h1.symm h2)]
  · intro smin smax h
    simp only [ArrayImplT, if_neg h]
  · intro k n c _
    exact c._data.property

/-- Witness for C4: the bounds pair (4, 4) selects the fixed array, and a
concrete initialized fixed chunk of capacity 2 reports size 2. -/
theorem dataArrayChunk_storage_selection_witness :
    ArrayImplT 4 4 = ArrayImpl.fixedArray 4
    ∧ DataArrayChunkFixed.Size
        (⟨⟨[[1, 2, 3, 4], [5, 6, 7, 8]], by decide⟩, true⟩ : DataArrayChunkFixed 4 2) = 2 :=
  ⟨dataArrayChunk_storage_selection.1 4 4 rfl (by decide),
   dataArrayChunk_storage_selection.2.2 4 2
     ⟨⟨[[1, 2, 3, 4], [5, 6, 7, 8]], by decide⟩, true⟩ rfl⟩

/-- C5: the OFFSET string block's `Add` deduplicates by byte-identical
content: a string already present leaves the chunk unchanged, a new
string is appended with offset equal to the `ByteSize()` before the
insertion; concretely, adding f o o twice stores one entry, and adding
f o o then b a r stores two entries, the second at offset 4 = len(foo)+1. -/
theorem stringBlockChunk_offset_add_dedup :
    (∀ (c : StringBlockChunkOffset) (s : List Nat),
        (∃ e ∈ c._data, e.2 = s) → c.Add s = c)
    ∧ (∀ (c : StringBlockChunkOffset) (s : List Nat),
        ¬(∃ e ∈ c._data, e.2 = s) →
          (c.Add s)._data = c._data ++ [(c.ByteSize, s)])
    ∧ ((StringBlockChunkOffset.mkDefault.Initialize.Add [102, 111, 111]).Add
          [102, 111, 111]).Size = 1
    ∧ ((StringBlockChunkOffset.mkDefault.Initialize.Add [102, 111, 111]).Add
          [98, 97, 114])._data = [(0, [102, 111, 111]), (4, [98, 97, 114])] := by
  refine ⟨?_, ?_, by decide, by decide⟩
  · intro c s h
    simp only [StringBlockChunkOffset.Add, if_pos h]
  · intro c s h
    simp only [StringBlockChunkOffset.Add, if_neg h]

/-- Witness for C5: adding the already-present string f o o to a concrete
one-entry chunk leaves it unchanged. -/
theorem stringBlockChunk_offset_add_dedup_witness :
    StringBlockChunkOffset.Add ⟨[(0, [102, 111, 111])], true⟩ [102, 111, 111]
      = ⟨[(0, [102, 111, 111])], true⟩ :=
  stringBlockChunk_offset_add_dedup.1
    ⟨[(0, [102, 111, 111])], true⟩ [102, 111, 111] (by decide)

/-- C6: the `requires` constraint on `Add` / `Remove` / `Clear`
(`std::is_same_v<ArrayImplT_, std::vector<T>>`) holds for an
instantiation exactly when it is not fixed-capacity, so those members
exist only on growable instantiations (in this embedding they are
likewise defined only on the growable `DataArrayChunk` model, never on
`DataArrayChunkFixed`); the exclusion is by storage type, not a runtime
check. -/
theorem dataArrayChunk_mutators_growable_only :
    ∀ size_min size_max : Nat,
      ArrayImplT size_min size_max = ArrayImpl.vector
        ↔ ¬(size_max = size_min ∧ size_max < sizetMax) := by
  intro smin smax
  by_cases h : smax = smin ∧ smax < sizetMax
  · simp [ArrayImplT, h]
  · simp [ArrayImplT, h]

/-- C7: an array chunk's `ByteSize()` is always `Size() * sizeof(T)`
(growable and fixed forms alike), and the serialized payload `Write`
produces occupies exactly that many bytes, elements laid out
consecutively. -/
theorem dataArrayChunk_byteSize_eq :
    (∀ (k : Nat) (c : DataArrayChunk k), c.ByteSize = c.Size * k)
    ∧ (∀ (k n : Nat) (c : DataArrayChunkFixed k n), c.ByteSize = c.Size * k)
    ∧ (∀ (k : Nat) (c : DataArrayChunk k), (∀ e ∈ c._data, e.length = k) →
        c.Write.length = c.ByteSize) := by
  refine ⟨fun k c => rfl, fun k n c => rfl, ?_⟩
  intro k c h
  simp only [DataArrayChunk.Write, DataArrayChunk.ByteSize]
  exact flatten_length_const k c._data h

/-- Witness for C7: a concrete two-element chunk of a 4-byte record type
serializes to 8 = 2 * 4 bytes. -/
theorem dataArrayChunk_byteSize_eq_witness :
    (DataArrayChunk.Write
        (⟨[[1, 2, 3, 4], [5, 6, 7, 8]], true⟩ : DataArrayChunk 4)).length
      = DataArrayChunk.ByteSize
        (⟨[[1, 2, 3, 4], [5, 6, 7, 8]], true⟩ : DataArrayChunk 4) :=
  dataArrayChunk_byteSize_eq.2.2 4
    ⟨[[1, 2, 3, 4], [5, 6, 7, 8]], true⟩ (by decide)

/-- C8: for every chunk type, `IsInitialized()` is `false` on a freshly
default-constructed chunk, is made `true` by every `Initialize` overload
and by every successful `Read`, and is left untouched by the mutators
`Add` / `Remove` / `Clear`, so it stays `false` until `Initialize` or a
successful `Read` runs. -/
theorem chunk_isInitialized_lifecycle :
    (∀ k : Nat, (DataChunk.mkDefault k).IsInitialized = false)
    ∧ (∀ k : Nat, (DataArrayChunk.mkDefault k).IsInitialized = false)
    ∧ (∀ k n : Nat, (DataArrayChunkFixed.mkDefault k n).IsInitialized = false)
    ∧ StringBlockChunkNormal.mkDefault.IsInitialized = false
    ∧ StringBlockChunkOffset.mkDefault.IsInitialized = false
    ∧ (∀ (k : Nat) (c : DataChunk k), c.InitializeDefault.IsInitialized = true
        ∧ ∀ d, (c.Initialize d).IsInitialized = true)
    ∧ (∀ (k : Nat) (c : DataArrayChunk k), c.Initialize.IsInitialized = true
        ∧ ∀ d n, (c.InitializeN d n).IsInitialized = true)
    ∧ (∀ (k n : Nat) (c : DataArrayChunkFixed k n), c.Initialize.IsInitialized = true)
    ∧ (∀ c : StringBlockChunkNormal, c.Initialize.IsInitialized = true
        ∧ ∀ ss, (c.InitializeWith ss).IsInitialized = true)
    ∧ (∀ c : StringBlockChunkOffset, c.Initialize.IsInitialized = true
        ∧ ∀ ss, (c.InitializeWith ss).IsInitialized = true)
    ∧ (∀ (k : Nat) (c c' : DataChunk k) (p : List Nat),
        c.Read p = some c' → c'.IsInitialized = true)
    ∧ (∀ (k : Nat) (c c' : DataArrayChunk k) (p : List Nat),
        c.Read p = some c' → c'.IsInitialized = true)
    ∧ (∀ (k n : Nat) (c c' : DataArrayChunkFixed k n) (p : List Nat),
        c.Read p = some c' → c'.IsInitialized = true)
    ∧ (∀ (c c' : StringBlockChunkNormal) (p : List Nat),
        c.Read p = some c' → c'.IsInitialized = true)
    ∧ (∀ (c c' : StringBlockChunkOffset) (p : List Nat),
        c.Read p = some c' → c'.IsInitialized = true)
    ∧ (∀ (k : Nat) (c : DataArrayChunk k), c.Add.IsInitialized = c.IsInitialized
        ∧ (∀ i, (c.Remove i).IsInitialized = c.IsInitialized)
        ∧ c.Clear.IsInitialized = c.IsInitialized)
    ∧ (∀ (c : StringBlockChunkNormal) (s : List Nat) (i : Nat),
        (c.Add s).IsInitialized = c.IsInitialized
        ∧ (c.Remove i).IsInitialized = c.IsInitialized
        ∧ c.Clear.IsInitialized = c.IsInitialized)
    ∧ (∀ (c : StringBlockChunkOffset) (s : List Nat) (i : Nat),
        (c.Add s).IsInitialized = c.IsInitialized
        ∧ (c.Remove i).IsInitialized = c.IsInitialized
        ∧ c.Clear.IsInitialized = c.IsInitialized) := by
  refine ⟨fun k => rfl, fun k => rfl, fun k n => rfl, rfl, rfl,
    fun k c => ⟨rfl, fun d => rfl⟩, fun k c => ⟨rfl, fun d n => rfl⟩, fun k n c => rfl,
    fun c => ⟨rfl, fun ss => rfl⟩, fun c => ⟨rfl, fun ss => rfl⟩,
    ?_, ?_, ?_, ?_, ?_, fun k c => ⟨rfl, fun i => rfl, rfl⟩,
    fun c s i => ⟨rfl, rfl, rfl⟩, fun c s i => ⟨?_, rfl, rfl⟩⟩
  · intro k c c' p h
    simp only [DataChunk.Read] at h
    split at h
    · cases h; rfl
    · cases h
  · intro k c c' p h
    simp only [DataArrayChunk.Read] at h
    split at h
    · cases h; rfl
    · cases h
  · intro k n c c' p h
    simp only [DataArrayChunkFixed.Read] at h
    split at h
    · cases h; rfl
    · cases h
  · intro c c' p h
    simp only [StringBlockChunkNormal.Read] at h
    cases hp : parseStrings p with
    | none => rw [hp] at h; cases h
    | some ss => rw [hp] at h; cases h; rfl
  · intro c c' p h
    simp only [StringBlockChunkOffset.Read] at h
    cases hp : parseStrings p with
    | none => rw [hp] at h; cases h
    | some ss => rw [hp] at h; cases h; rfl
  · simp only [StringBlockChunkOffset.Add]
    split <;> rfl

/-- Witness for C8: a successful concrete `Read` of a 4-byte payload
yields an initialized single-value chunk. -/
theorem chunk_isInitialized_lifecycle_witness :
    DataChunk.IsInitialized (⟨[1, 2, 3, 4], true⟩ : DataChunk 4) = true :=
  chunk_isInitialized_lifecycle.2.2.2.2.2.2.2.2.2.2.1 4 (DataChunk.mkDefault 4)
    ⟨[1, 2, 3, 4], true⟩ [1, 2, 3, 4] (by decide)

/-- C9: `Clear()` on an initialized growable array chunk or string-block
chunk empties the storage (`Size()` becomes 0) while `IsInitialized()`
remains `true`, and changes nothing else: the resulting state is exactly
the empty storage paired with the unchanged flag. -/
theorem clear_preserves_initialized :
    (∀ (k : Nat) (c : DataArrayChunk k), c.IsInitialized = true →
        c.Clear.Size = 0 ∧ c.Clear.IsInitialized = true
        ∧ c.Clear = { _data := [], _is_initialized := c._is_initialized })
    ∧ (∀ c : StringBlockChunkNormal, c.IsInitialized = true →
        c.Clear.Size = 0 ∧ c.Clear.IsInitialized = true
        ∧ c.Clear = { _data := [], _is_initialized := c._is_initialized })
    ∧ (∀ c : StringBlockChunkOffset, c.IsInitialized = true →
        c.Clear.Size = 0 ∧ c.Clear.IsInitialized = true
        ∧ c.Clear = { _data := [], _is_initialized := c._is_initialized }) := by
  refine ⟨?_, ?_, ?_⟩
  · intro k c h
    exact ⟨rfl, h, rfl⟩
  · intro c h
    exact ⟨rfl, h, rfl⟩
  · intro c h
    exact ⟨rfl, h, rfl⟩

/-- Witness for C9: clearing a concrete initialized one-element growable
array chunk empties it and keeps it initialized. -/
theorem clear_preserves_initialized_witness :
    (DataArrayChunk.Clear (⟨[[1, 2, 3, 4]], true⟩ : DataArrayChunk 4)).Size = 0
    ∧ (DataArrayChunk.Clear (⟨[[1, 2, 3, 4]], true⟩ : DataArrayChunk 4)).IsInitialized = true :=
  ⟨(clear_preserves_initialized.1 4 ⟨[[1, 2, 3, 4]], true⟩ rfl).1,
   (clear_preserves_initialized.1 4 ⟨[[1, 2, 3, 4]], true⟩ rfl).2.1⟩

end IOCommon
